import Mathlib

/-!
Shallow embedding of `apps/sim/app/api/workflows/[id]/execute/route.ts`:
the workflow execution orchestrator (admission gating on a shared
running-executions registry, environment-variable template substitution with
secret decryption, workflow-variable normalization, engine invocation with
plain/streaming result extraction, result enrichment, counter updates and
persistence), together with the HTTP error mapping of the GET/POST handlers.

External collaborators (usage monitor, DB loads, decryption, JSON parsing,
sub-block merge, serializer, executor, trace building) are modelled as an
`Oracles` record of pure functions/values: one orchestration call consults each
of them exactly as the source does.  Machine-visible side effects on external
stores are recorded in an `Effect` trace.  The process-wide
`runningExecutions : Set<string>` registry is threaded explicitly as a
`List String`.
-/

deriving instance DecidableEq for Except

namespace WorkflowExec

/-- The character `{` (code point 123), used by the template scanner. -/
def lbrace : Char := Char.ofNat 123

/-- The character `}` (code point 125), used by the template scanner. -/
def rbrace : Char := Char.ofNat 125

/-- Opaque JSON-ish value stored in a block sub-field.  The orchestrator only
inspects whether a value is a string (`typeof value === 'string'`); everything
else passes through untouched, modelled by `vother` with an opaque tag. -/
inductive Value where
  | vstr (s : String)
  | vother (tag : Nat)
deriving DecidableEq, Repr

/-- Result of `checkServerSideUsageLimits` (route.ts line 63): the fields the
route reads.  An absent `message` is modelled as `""` (both are falsy at the
`usageCheck.message || default` expression on line 70). -/
structure UsageCheck where
  isExceeded : Bool
  message : String
deriving DecidableEq, Repr

/-- Workflow data destructured on route.ts lines 100-118: merged-block input
plus the graph components passed opaquely to the external `Serializer`. -/
structure WorkflowData where
  blocks : List (String × List (String × Value))
  edges : Nat
  loops : Nat
  parallels : Nat
deriving DecidableEq, Repr

/-- The `workflow.variables` field (route.ts lines 225-244): absent/falsy, a
JSON-encoded string, or an already-parsed object. -/
inductive WfVarsField where
  | absent
  | str (s : String)
  | obj (fields : List (String × Value))
deriving DecidableEq, Repr

/-- The workflow record fields read by `executeWorkflow`.  `vars` models the
source's `workflow.variables` field (the name `variables` is reserved in
Lean). -/
structure Workflow where
  id : String
  userId : String
  vars : WfVarsField
  deployedState : Option WorkflowData
deriving Repr

/-- The engine's `ExecutionResult` as consumed by the route: the `success`
flag drives counter updates, everything else is opaque output. -/
structure ExecutionResult where
  success : Bool
  output : Value
deriving DecidableEq, Repr

/-- Value returned by `executor.execute` (route.ts line 263): either a plain
result or a composite with both a `stream` and an `execution` component
(route.ts line 267 checks `'stream' in result && 'execution' in result`). -/
inductive EngineReturn where
  | plain (result : ExecutionResult)
  | streaming (stream : Nat) (execution : ExecutionResult)
deriving DecidableEq, Repr

/-- Result extended with trace spans (route.ts lines 289-296). -/
structure EnrichedResult where
  base : ExecutionResult
  traceSpans : List Nat
  totalDuration : Nat
deriving DecidableEq, Repr

/-- Externally visible side effects of one orchestration call, in program
order.  `engineInvoke` records the workflow-variables argument handed to the
`Executor`; `persistLogs` records the enriched result handed to
`persistExecutionLogs`. -/
inductive Effect where
  | genExecutionId (execId : String)
  | usageCheck (userId : String)
  | loadWorkflow (workflowId : String)
  | fetchEnv (userId : String)
  | decryptCall (ciphertext : String)
  | engineInvoke (workflowVariables : List (String × Value))
  | runCountIncrement (workflowId : String)
  | apiCallsIncrement (userId : String)
  | persistLogs (workflowId : String) (execId : String) (result : EnrichedResult)
  | persistError (workflowId : String) (execId : String)
deriving DecidableEq, Repr

/-- Errors thrown during template substitution and env-var decryption
(route.ts lines 156-171 and 188-196). -/
inductive SubstErr where
  | varNotFound (name : String)
  | decryptFailed (name : String) (msg : String)
deriving DecidableEq, Repr

/-- Errors thrown by `executeWorkflow`.  `usageLimit` corresponds to the
distinguished `UsageLimitError` class carrying `statusCode = 402`. -/
inductive ExecError where
  | alreadyRunning
  | usageLimit (msg : String)
  | noWorkflowData (workflowId : String)
  | varNotFound (name : String)
  | decryptFailed (name : String) (msg : String)
  | engineError (msg : String)
deriving DecidableEq, Repr

/-- External collaborators consulted by one orchestration call, as pure
oracles.  `executionId` stands for the fresh `uuidv4()` of line 50; `decrypt`
for `decryptSecret`; `merge` for `mergeSubblockState`; `jsonParseVal` /
`jsonParseObj` for the two `JSON.parse` call sites (response formats and
workflow variables, `none` = the parse throws); `serialize` for
`new Serializer().serializeWorkflow` (opaque output); `engine` for
`executor.execute` applied to the five constructor arguments; `buildTrace`
for `buildTraceSpans`.  `userEnv` is the environment record already validated
by `EnvVarsSchema` (a string-to-string record), so the zod parse of line 137
is total here. -/
structure Oracles where
  executionId : String
  usage : UsageCheck
  normalized : Option WorkflowData
  userEnv : Option (List (String × String))
  decrypt : String → Except String String
  merge : List (String × List (String × Value)) → List (String × List (String × Value))
  jsonParseVal : String → Option Value
  jsonParseObj : String → Option (List (String × Value))
  serialize : List (String × List (String × Value)) → Nat → Nat → Nat → Nat
  engine : Nat → List (String × List (String × Value)) → List (String × String) →
      Option Value → List (String × Value) → Except String EngineReturn
  buildTrace : ExecutionResult → List Nat × Nat

/-- The admission key of route.ts line 54: `workflowId:requestId`. -/
def executionKey (workflowId requestId : String) : String :=
  workflowId ++ ":" ++ requestId

/-- `runningExecutions.add` — JS `Set` insertion (no duplicates). -/
def regInsert (k : String) (r : List String) : List String :=
  if k ∈ r then r else k :: r

/-- `runningExecutions.delete` — JS `Set` removal of the element. -/
def regErase (k : String) (r : List String) : List String :=
  r.filter (fun x => x ≠ k)

/-! ### Template scanning and substitution (route.ts lines 148-174) -/

/-- One attempt of the regex `/{{([^}]+)}}/` at the head of the character
list: two `{`, then one or more non-`}` name characters, then exactly two
`}`.  Returns the captured name and the remainder after the whole match. -/
def tryMatch (s : List Char) : Option (List Char × List Char) :=
  match s with
  | c1 :: c2 :: rest =>
    if c1 = lbrace ∧ c2 = lbrace then
      let name := rest.takeWhile (fun c => c ≠ rbrace)
      match rest.dropWhile (fun c => c ≠ rbrace) with
      | d1 :: d2 :: rest2 =>
        if d1 = rbrace ∧ d2 = rbrace ∧ name ≠ [] then some (name, rest2) else none
      | _ => none
    else none
  | _ => none

/-- Global regex scan: try a match at each position, advancing past a match on
success and by one character on failure — the semantics of
`value.match(/{{([^}]+)}}/g)`.  Fuel is the list length; every step strictly
shortens the list so the fuel is never exhausted on the initial call. -/
def scanAux : Nat → List Char → List String
  | 0, _ => []
  | _, [] => []
  | Nat.succ fuel, c :: rest =>
    match tryMatch (c :: rest) with
    | some (name, rest2) =>
      String.mk (lbrace :: lbrace :: (name ++ rbrace :: rbrace :: [])) :: scanAux fuel rest2
    | none => scanAux fuel rest

/-- All matched placeholder substrings of `s`, in order (`value.match(...)`,
route.ts line 150; the empty list plays the role of a `null` result). -/
def findMatches (s : String) : List String :=
  scanAux s.toList.length s.toList

/-- `match.slice(2, -2)` of route.ts line 154: strip the surrounding braces. -/
def stripBraces (m : String) : String :=
  String.mk ((m.toList.drop 2).dropLast.dropLast)

/-- Replace the first occurrence of `pat` in the list — the semantics of
JavaScript `String.prototype.replace` with a string pattern (route.ts
line 162).  Replacement-pattern expansion of `$`-sequences in the replacement
string is not modelled; the patterns used are the nonempty matched
placeholders. -/
def replaceFirstList : List Char → List Char → List Char → List Char
  | [], _, _ => []
  | c :: rest, pat, repl =>
    if pat.isPrefixOf (c :: rest) then repl ++ (c :: rest).drop pat.length
    else c :: replaceFirstList rest pat repl

/-- String wrapper for `replaceFirstList`. -/
def replaceFirstStr (s pat repl : String) : String :=
  String.mk (replaceFirstList s.toList pat.toList repl.toList)

/-- Containment of `pat` as a contiguous sublist: tested as a prefix at every
suffix position. -/
def containsList (pat : List Char) : List Char → Bool
  | [] => pat.isPrefixOf []
  | c :: rest => pat.isPrefixOf (c :: rest) || containsList pat rest

/-- `value.includes(pat)` — substring containment. -/
def containsSub (s pat : String) : Bool :=
  containsList pat.toList s.toList

/-- The guard of route.ts line 149: the value contains both `\x7b\x7b` and
`\x7d\x7d`. -/
def hasBraces (s : String) : Bool :=
  containsSub s (String.mk [lbrace, lbrace]) && containsSub s (String.mk [rbrace, rbrace])

/-- Variable lookup with the falsiness test of route.ts line 156
(`if (!encryptedValue)`): an entry bound to the empty string counts as
missing. -/
def lookupVar (vars : List (String × String)) (name : String) : Option String :=
  match vars.lookup name with
  | some enc => if enc = "" then none else some enc
  | none => none

/-- The sequential loop over the matches of route.ts lines 153-172: look the
name up, decrypt, and replace the first occurrence of the matched text in the
current value.  Emits one `decryptCall` effect per `decryptSecret` call (also
when decryption then fails). -/
def substMatches (decrypt : String → Except String String)
    (vars : List (String × String)) : List String → String → List Effect × Except SubstErr String
  | [], v => ([], .ok v)
  | mtext :: rest, v =>
    match lookupVar vars (stripBraces mtext) with
    | none => ([], .error (.varNotFound (stripBraces mtext)))
    | some enc =>
      match decrypt enc with
      | .error msg => ([Effect.decryptCall enc], .error (.decryptFailed (stripBraces mtext) msg))
      | .ok d =>
        let tail := substMatches decrypt vars rest (replaceFirstStr v mtext d)
        (Effect.decryptCall enc :: tail.1, tail.2)

/-- Substitution for one sub-block value (route.ts lines 146-176): only
strings containing both brace pairs are scanned; everything else passes
through unchanged. -/
def substituteValue (decrypt : String → Except String String)
    (vars : List (String × String)) (v : Value) : List Effect × Except SubstErr Value :=
  match v with
  | .vstr s =>
    if hasBraces s then
      let r := substMatches decrypt vars (findMatches s) s
      (r.1, r.2.map Value.vstr)
    else ([], .ok v)
  | .vother t => ([], .ok (.vother t))

/-- The inner reduce over a block's sub-blocks (route.ts lines 143-180):
sequential, aborting on the first failure but keeping the effects already
performed. -/
def resolveSubBlocks (decrypt : String → Except String String)
    (vars : List (String × String)) :
    List (String × Value) → List Effect × Except SubstErr (List (String × Value))
  | [] => ([], .ok [])
  | (key, v) :: rest =>
    let r := substituteValue decrypt vars v
    match r.2 with
    | .error e => (r.1, .error e)
    | .ok v2 =>
      let tail := resolveSubBlocks decrypt vars rest
      (r.1 ++ tail.1,
       match tail.2 with
       | .error e => .error e
       | .ok done => .ok ((key, v2) :: done))

/-- The outer reduce over all blocks (route.ts lines 140-184). -/
def resolveBlocks (decrypt : String → Except String String)
    (vars : List (String × String)) :
    List (String × List (String × Value)) →
      List Effect × Except SubstErr (List (String × List (String × Value)))
  | [] => ([], .ok [])
  | (bid, subs) :: rest =>
    let r := resolveSubBlocks decrypt vars subs
    match r.2 with
    | .error e => (r.1, .error e)
    | .ok subs2 =>
      let tail := resolveBlocks decrypt vars rest
      (r.1 ++ tail.1,
       match tail.2 with
       | .error e => .error e
       | .ok done => .ok ((bid, subs2) :: done))

/-- The up-front decryption of every stored environment variable (route.ts
lines 186-196), whether referenced by a placeholder or not; the first failure
aborts, naming the variable. -/
def decryptAll (decrypt : String → Except String String) :
    List (String × String) → List Effect × Except SubstErr (List (String × String))
  | [] => ([], .ok [])
  | (k, enc) :: rest =>
    match decrypt enc with
    | .error msg => ([Effect.decryptCall enc], .error (.decryptFailed k msg))
    | .ok d =>
      let tail := decryptAll decrypt rest
      (Effect.decryptCall enc :: tail.1,
       match tail.2 with
       | .error e => .error e
       | .ok done => .ok ((k, d) :: done))

/-- Response-format normalization for one block state (route.ts lines
199-222): if the `responseFormat` sub-field is a truthy string, attempt a
JSON parse and substitute the parsed value; on failure (or a non-string or
falsy field) keep the block state unchanged. -/
def processBlockState (parseVal : String → Option Value)
    (bs : List (String × Value)) : List (String × Value) :=
  match bs.lookup "responseFormat" with
  | some (.vstr s) =>
    if s = "" then bs
    else
      match parseVal s with
      | some v => bs.map (fun p => if p.1 = "responseFormat" then (p.1, v) else p)
      | none => bs
  | _ => bs

/-- Workflow-variable normalization (route.ts lines 225-244): falsy field or
failed JSON parse of a string field degrade to the empty mapping without
raising; an already-parsed object is used as is. -/
def normalizeWorkflowVariables (parseObj : String → Option (List (String × Value))) :
    WfVarsField → List (String × Value)
  | .absent => []
  | .str s => if s = "" then [] else (parseObj s).getD []
  | .obj fields => fields

/-- Extraction of the execution result from the engine's return value
(route.ts line 267): a composite exposing both a stream and an execution
yields its execution component, anything else is used as is. -/
def extractResult : EngineReturn → ExecutionResult
  | .plain r => r
  | .streaming _ ex => ex

/-- Injection of substitution errors into the orchestration error type. -/
def substErrToExec : SubstErr → ExecError
  | .varNotFound n => .varNotFound n
  | .decryptFailed n m => .decryptFailed n m

/-- Workflow-data selection of route.ts lines 93-118: normalized tables are
the primary source, the deployed state the legacy fallback; absence of both
is fatal. -/
def loadData (o : Oracles) (wf : Workflow) : Except ExecError WorkflowData :=
  match o.normalized with
  | some d => .ok d
  | none =>
    match wf.deployedState with
    | some d => .ok d
    | none => .error (.noWorkflowData wf.id)

/-- The body of the `try` block of `executeWorkflow` (route.ts lines 89-301),
after the admission key has been inserted: load, merge, fetch environment,
substitute, decrypt all variables, normalize response formats and workflow
variables, serialize (note: the serializer receives the *unsubstituted*
merged states, line 248), invoke the engine, extract the result, update
counters on success, enrich and persist.  Returns the effect trace of the
body together with the result or the thrown error. -/
def runBody (o : Oracles) (wf : Workflow) (input : Option Value) :
    List Effect × Except ExecError ExecutionResult :=
  match loadData o wf with
  | .error e => ([Effect.loadWorkflow wf.id], .error e)
  | .ok data =>
    let merged := o.merge data.blocks
    let envVars := o.userEnv.getD []
    let base := [Effect.loadWorkflow wf.id, Effect.fetchEnv wf.userId]
    let sub := resolveBlocks o.decrypt envVars merged
    match sub.2 with
    | .error e => (base ++ sub.1, .error (substErrToExec e))
    | .ok current =>
      let dec := decryptAll o.decrypt envVars
      match dec.2 with
      | .error e => (base ++ sub.1 ++ dec.1, .error (substErrToExec e))
      | .ok denv =>
        let processed := current.map (fun b => (b.1, processBlockState o.jsonParseVal b.2))
        let wfVars := normalizeWorkflowVariables o.jsonParseObj wf.vars
        let sw := o.serialize merged data.edges data.loops data.parallels
        match o.engine sw processed denv input wfVars with
        | .error msg =>
          (base ++ sub.1 ++ dec.1 ++ [Effect.engineInvoke wfVars], .error (.engineError msg))
        | .ok ret =>
          let er := extractResult ret
          let counters :=
            if er.success then
              [Effect.runCountIncrement wf.id, Effect.apiCallsIncrement wf.userId]
            else []
          let bt := o.buildTrace er
          (base ++ sub.1 ++ dec.1 ++ [Effect.engineInvoke wfVars] ++ counters
             ++ [Effect.persistLogs wf.id o.executionId ⟨er, bt.1, bt.2⟩],
           .ok er)

/-- The default usage-limit message (route.ts line 70): `usageCheck.message`
when truthy, the fixed fallback otherwise. -/
def usageMessage (m : String) : String :=
  if m = "" then "Usage limit exceeded. Please upgrade your plan to continue." else m

/-- Outcome of one `executeWorkflow` call: the returned result or thrown
error, the registry after the call, and the effect trace. -/
structure RunOutcome where
  result : Except ExecError ExecutionResult
  registryAfter : List String
  trace : List Effect
deriving Repr

/-- The orchestration function (route.ts lines 48-310).  A fresh executionId
is generated first (line 50); the registry membership test (line 57) and the
usage-limit check (lines 63-72) precede the `try` block, so their errors skip
both the error-persistence `catch` (line 305) and the key insertion; the key
is inserted on entering the `try` (line 88) and removed in `finally`
(line 308) on every exit path of the body. -/
def executeWorkflow (o : Oracles) (wf : Workflow) (requestId : String)
    (input : Option Value) (reg : List String) : RunOutcome :=
  let key := executionKey wf.id requestId
  let genEff := [Effect.genExecutionId o.executionId]
  if key ∈ reg then
    ⟨.error .alreadyRunning, reg, genEff⟩
  else if o.usage.isExceeded then
    ⟨.error (.usageLimit (usageMessage o.usage.message)), reg,
      genEff ++ [Effect.usageCheck wf.userId]⟩
  else
    let body := runBody o wf input
    let reg2 := regErase key (regInsert key reg)
    match body.2 with
    | .ok r => ⟨.ok r, reg2, genEff ++ [Effect.usageCheck wf.userId] ++ body.1⟩
    | .error e =>
      ⟨.error e, reg2,
        genEff ++ [Effect.usageCheck wf.userId] ++ body.1
          ++ [Effect.persistError wf.id o.executionId]⟩

/-! ### HTTP boundary (route.ts lines 312-407) -/

/-- The `{message, status, code}` triple produced by `createErrorResponse`. -/
structure ErrorResponse where
  message : String
  status : Nat
  code : String
deriving DecidableEq, Repr

/-- `error.message` of each modelled error, as constructed in route.ts
(lines 59, 69-71, 111-113, 157, 168-170). -/
def errMessage : ExecError → String
  | .alreadyRunning => "Execution is already running"
  | .usageLimit m => m
  | .noWorkflowData wid =>
    "Workflow " ++ wid ++ " has no deployed state and no normalized data available"
  | .varNotFound n => "Environment variable \"" ++ n ++ "\" was not found"
  | .decryptFailed n m => "Failed to decrypt environment variable \"" ++ n ++ "\": " ++ m
  | .engineError m => m

/-- The catch blocks of GET/POST (route.ts lines 333-346 and 393-406): a
`UsageLimitError` keeps its message, 402 status and `USAGE_LIMIT_EXCEEDED`
code; every other error becomes a 500 `EXECUTION_ERROR` with the error's
message (or the fixed fallback when the message is falsy). -/
def errorToResponse (e : ExecError) : ErrorResponse :=
  match e with
  | .usageLimit m => ⟨m, 402, "USAGE_LIMIT_EXCEEDED"⟩
  | other =>
    ⟨if errMessage other = "" then "Failed to execute workflow" else errMessage other,
      500, "EXECUTION_ERROR"⟩

/-- HTTP-visible outcome of a handler call; success formatting (direct
payload or response-block response) is delegated to external helpers and
both are built from the returned result. -/
inductive HttpOutcome where
  | success (result : ExecutionResult)
  | failure (resp : ErrorResponse)
deriving DecidableEq, Repr

/-- A GET/POST handler call around `executeWorkflow` (route.ts lines 324-345
and 384-405), restricted to its result/error mapping. -/
def handleRequest (o : Oracles) (wf : Workflow) (requestId : String)
    (input : Option Value) (reg : List String) : HttpOutcome :=
  match (executeWorkflow o wf requestId input reg).result with
  | .ok r => .success r
  | .error e => .failure (errorToResponse e)

/-! ### Reference template expansion (spec wording, for comparison)

The spec describes substitution as non-recursive: each placeholder of the
original string is replaced by its resolved value and a resolved value is
never itself re-scanned or re-substituted.  `specTemplateExpand` follows that
wording; it is compared against the source-derived `substituteValue`. -/

/-- Reference expansion following the spec's words: walk the original
characters once, copying non-placeholder text and splicing in the resolved
value of each placeholder; spliced text is never revisited.  An unresolvable
name fails, carrying that name.  Fuel is the list length; every step strictly
shortens the list. -/
def specExpandAux (resolve : String → Option String) :
    Nat → List Char → Except String (List Char)
  | 0, _ => .ok []
  | _, [] => .ok []
  | Nat.succ fuel, c :: rest =>
    match tryMatch (c :: rest) with
    | some (name, rest2) =>
      match resolve (String.mk name) with
      | none => .error (String.mk name)
      | some v =>
        match specExpandAux resolve fuel rest2 with
        | .error e => .error e
        | .ok out => .ok (v.toList ++ out)
    | none =>
      match specExpandAux resolve fuel rest with
      | .error e => .error e
      | .ok out => .ok (c :: out)

/-- String wrapper for `specExpandAux`: the reference result of substituting
a resolved variable mapping into one field value. -/
def specTemplateExpand (resolve : String → Option String) (s : String) :
    Except String String :=
  (specExpandAux resolve s.toList.length s.toList).map String.mk

/-! ### Interleaving model of concurrent admission (for the registry race)

`executeWorkflow` suspends at every `await`.  Relative to the shared
`runningExecutions` registry, one in-flight call performs exactly three
accesses: the membership test (line 57, before suspending at the usage-limit
await of line 63), the insertion (line 88, after resuming from that await and
before suspending at the workflow load of line 93), and the deletion in
`finally` (line 308).  The segments between suspension points run atomically
(one JavaScript event loop); the model below cuts a call into those atomic
segments and lets a schedule interleave several calls.  Usage checks are
taken to return not-exceeded, one realizable oracle outcome. -/

/-- Program counter of one in-flight call, cut at the awaits that separate
its registry accesses. -/
inductive TaskPC where
  | atCheck
  | atAdmit
  | atEngine
  | atCleanup
  | done
  | failedDup
deriving DecidableEq, Repr

/-- One in-flight call: its admission key, program counter, and whether it
passed admission (performed the insert of line 88) and started the engine
invocation of line 263. -/
structure ConcTask where
  key : String
  pc : TaskPC
  admitted : Bool
  engineStarted : Bool
deriving DecidableEq, Repr

/-- One atomic segment of a call against the shared registry:
`atCheck` runs the membership test of line 57 (fail with AlreadyRunning, or
proceed and suspend at the usage await); `atAdmit` resumes with a
not-exceeded usage result and performs the insert of line 88; `atEngine`
reaches and issues the engine invocation; `atCleanup` runs the `finally`
deletion of line 308. -/
def taskStep (reg : List String) (t : ConcTask) : List String × ConcTask :=
  match t.pc with
  | .atCheck =>
    if t.key ∈ reg then (reg, { t with pc := .failedDup })
    else (reg, { t with pc := .atAdmit })
  | .atAdmit => (regInsert t.key reg, { t with pc := .atEngine, admitted := true })
  | .atEngine => (reg, { t with pc := .atCleanup, engineStarted := true })
  | .atCleanup => (regErase t.key reg, { t with pc := .done })
  | .done => (reg, t)
  | .failedDup => (reg, t)

/-- Shared registry plus the in-flight calls. -/
structure ConcState where
  reg : List String
  tasks : List ConcTask
deriving DecidableEq, Repr

/-- Run the atomic segment of the scheduled task (no-op for an index out of
range). -/
def schedStep (s : ConcState) (i : Nat) : ConcState :=
  match s.tasks[i]? with
  | none => s
  | some t =>
    let r := taskStep s.reg t
    ⟨r.1, s.tasks.set i r.2⟩

/-- Run a whole schedule (a list of task indices, one atomic segment each). -/
def runSchedule (init : ConcState) (sched : List Nat) : ConcState :=
  sched.foldl schedStep init

/-- Two calls sharing the admission key of workflow `wf-1` and request
`req-1`, both about to run the membership test, over an empty registry. -/
def raceInit : ConcState :=
  ⟨[], [⟨executionKey "wf-1" "req-1", .atCheck, false, false⟩,
        ⟨executionKey "wf-1" "req-1", .atCheck, false, false⟩]⟩

/-- The interleaving in which both calls run their membership test while both
are still suspended at the usage await, then both insert and both reach the
engine invocation. -/
def raceFinal : ConcState :=
  runSchedule raceInit [0, 1, 0, 1, 0, 1]

/-! ### Effect counting -/

/-- Number of effects in a trace satisfying a predicate. -/
def countEff (p : Effect → Bool) (l : List Effect) : Nat :=
  (l.filter p).length

/-- Predicate selecting run-counter increments. -/
def isRunCount : Effect → Bool
  | .runCountIncrement _ => true
  | _ => false

/-- Predicate selecting user API-call counter increments. -/
def isApiCalls : Effect → Bool
  | .apiCallsIncrement _ => true
  | _ => false

/-- Predicate selecting decryption calls. -/
def isDecrypt : Effect → Bool
  | .decryptCall _ => true
  | _ => false

/-- Predicate selecting engine invocations. -/
def isEngine : Effect → Bool
  | .engineInvoke _ => true
  | _ => false

/-- Predicate selecting workflow-definition loads. -/
def isLoad : Effect → Bool
  | .loadWorkflow _ => true
  | _ => false

/-- Predicate selecting persistence-sink failure reports. -/
def isPersistErr : Effect → Bool
  | .persistError _ _ => true
  | _ => false

/-! ### Concrete data for counterexamples and witnesses -/

/-- A successful engine result with opaque output. -/
def demoResult : ExecutionResult := ⟨true, .vother 0⟩

/-- Workflow data with no blocks and opaque graph components. -/
def demoData : WorkflowData := ⟨[], 0, 0, 0⟩

/-- A workflow with no stored variables and no deployed state. -/
def wfDemo : Workflow := ⟨"wf-1", "user-1", .absent, none⟩

/-- A workflow whose stored variables field is an unparseable string. -/
def wfBadVars : Workflow := ⟨"wf-1", "user-1", .str "not structured", none⟩

/-- Baseline oracles: usage within limits, normalized data present, empty
environment, engine succeeding with a plain successful result. -/
def oBase : Oracles :=
  { executionId := "exec-1"
    usage := ⟨false, ""⟩
    normalized := some demoData
    userEnv := some []
    decrypt := fun _ => .error "unreachable"
    merge := fun b => b
    jsonParseVal := fun _ => none
    jsonParseObj := fun _ => none
    serialize := fun _ _ _ _ => 0
    engine := fun _ _ _ _ _ => .ok (.plain demoResult)
    buildTrace := fun _ => ([], 0) }

/-- Baseline oracles with a usage-limit lookup reporting exceeded. -/
def oUsageExceeded : Oracles :=
  { oBase with usage := ⟨true, "limit hit"⟩, executionId := "exec-8" }

/-- Baseline oracles with the engine throwing a generic fault. -/
def oEngineFail : Oracles :=
  { oBase with engine := fun _ _ _ _ _ => .error "boom" }

/-- Baseline oracles with the engine returning a composite stream+execution
value. -/
def oStream : Oracles :=
  { oBase with engine := fun _ _ _ _ _ => .ok (.streaming 7 demoResult) }

/-- Baseline oracles with one stored environment variable, `UNUSED`, whose
ciphertext fails to decrypt; no block references it. -/
def oDecFail : Oracles :=
  { oBase with userEnv := some [("UNUSED", "bad")],
               decrypt := fun _ => .error "nope" }

/-- Encrypted variable mapping for the re-substitution counterexample. -/
def cexVars : List (String × String) := [("A", "encA"), ("B", "encB")]

/-- Decryption oracle for the re-substitution counterexample: `A` decrypts
to the literal text `\x7b\x7bB\x7d\x7d`, `B` decrypts to `y`. -/
def cexDecrypt : String → Except String String := fun c =>
  if c = "encA" then .ok (String.mk [lbrace, lbrace] ++ "B" ++ String.mk [rbrace, rbrace])
  else if c = "encB" then .ok "y"
  else .error "unknown ciphertext"

/-- The resolved variable mapping corresponding to `cexVars`/`cexDecrypt`. -/
def cexResolve : String → Option String := fun n =>
  if n = "A" then some (String.mk [lbrace, lbrace] ++ "B" ++ String.mk [rbrace, rbrace])
  else if n = "B" then some "y"
  else none

/-- The field value `\x7b\x7bA\x7d\x7d\x7b\x7bB\x7d\x7d` of the
re-substitution counterexample. -/
def cexTemplate : String :=
  String.mk [lbrace, lbrace] ++ "A" ++ String.mk [rbrace, rbrace]
    ++ String.mk [lbrace, lbrace] ++ "B" ++ String.mk [rbrace, rbrace]

/-- The field value `\x7b\x7bA\x7d\x7d and \x7b\x7bB\x7d\x7d` of the spec's
worked example. -/
def posTemplate : String :=
  String.mk [lbrace, lbrace] ++ "A" ++ String.mk [rbrace, rbrace] ++ " and "
    ++ String.mk [lbrace, lbrace] ++ "B" ++ String.mk [rbrace, rbrace]

/-- The placeholder text `\x7b\x7bA\x7d\x7d`. -/
def phA : String := String.mk [lbrace, lbrace] ++ "A" ++ String.mk [rbrace, rbrace]

/-- The placeholder text `\x7b\x7bB\x7d\x7d`. -/
def phB : String := String.mk [lbrace, lbrace] ++ "B" ++ String.mk [rbrace, rbrace]

/-- Encrypted variable mapping for the spec's worked example (`A`, `B`). -/
def posVars : List (String × String) := [("A", "encA"), ("B", "encB")]

/-- Decryption oracle for the spec's worked example: `A` decrypts to `x`,
`B` to `y`. -/
def posDecrypt : String → Except String String := fun c =>
  if c = "encA" then .ok "x"
  else if c = "encB" then .ok "y"
  else .error "unknown ciphertext"

/-- Checks that one placeholder's name resolves: the lookup is truthy and the
ciphertext decrypts. -/
def resolvable (decrypt : String → Except String String)
    (vars : List (String × String)) (mtext : String) : Bool :=
  match lookupVar vars (stripBraces mtext) with
  | none => false
  | some enc =>
    match decrypt enc with
    | .ok _ => true
    | .error _ => false

/-! ### Helper lemmas about effect traces and the orchestration branches -/

theorem countEff_append (p : Effect → Bool) (l1 l2 : List Effect) :
    countEff p (l1 ++ l2) = countEff p l1 + countEff p l2 := by
  simp [countEff, List.filter_append]

theorem countEff_eq_zero {p : Effect → Bool} {l : List Effect}
    (h : ∀ e ∈ l, p e = false) : countEff p l = 0 := by
  simp only [countEff, List.length_eq_zero, List.filter_eq_nil_iff]
  intro e he
  simp [h e he]

theorem decryptOnly_count {p : Effect → Bool} {l : List Effect}
    (h : ∀ e ∈ l, isDecrypt e = true) (hp : ∀ c, p (Effect.decryptCall c) = false) :
    countEff p l = 0 := by
  refine countEff_eq_zero ?_
  intro e he
  have hd := h e he
  cases e
  case decryptCall c => exact hp c
  all_goals simp [isDecrypt] at hd

theorem substMatches_effects (decrypt : String → Except String String)
    (vars : List (String × String)) :
    ∀ (ms : List String) (v : String), ∀ e ∈ (substMatches decrypt vars ms v).1,
      isDecrypt e = true := by
  intro ms
  induction ms with
  | nil => intro v e he; simp [substMatches] at he
  | cons m rest ih =>
    intro v e he
    simp only [substMatches] at he
    split at he
    · simp at he
    · split at he
      · simp at he; subst he; rfl
      · simp only [List.mem_cons] at he
        rcases he with he | he
        · subst he; rfl
        · exact ih _ e he

theorem substituteValue_effects (decrypt : String → Except String String)
    (vars : List (String × String)) (v : Value) :
    ∀ e ∈ (substituteValue decrypt vars v).1, isDecrypt e = true := by
  intro e he
  cases v with
  | vstr s =>
    simp only [substituteValue] at he
    split at he
    · exact substMatches_effects decrypt vars _ _ e he
    · simp at he
  | vother t => simp [substituteValue] at he

theorem resolveSubBlocks_effects (decrypt : String → Except String String)
    (vars : List (String × String)) :
    ∀ (subs : List (String × Value)), ∀ e ∈ (resolveSubBlocks decrypt vars subs).1,
      isDecrypt e = true := by
  intro subs
  induction subs with
  | nil => intro e he; simp [resolveSubBlocks] at he
  | cons kv rest ih =>
    intro e he
    obtain ⟨key, v⟩ := kv
    simp only [resolveSubBlocks] at he
    split at he
    · exact substituteValue_effects decrypt vars v e he
    · simp only [List.mem_append] at he
      rcases he with he | he
      · exact substituteValue_effects decrypt vars v e he
      · exact ih e he

theorem resolveBlocks_effects (decrypt : String → Except String String)
    (vars : List (String × String)) :
    ∀ (blocks : List (String × List (String × Value))),
      ∀ e ∈ (resolveBlocks decrypt vars blocks).1, isDecrypt e = true := by
  intro blocks
  induction blocks with
  | nil => intro e he; simp [resolveBlocks] at he
  | cons b rest ih =>
    intro e he
    obtain ⟨bid, subs⟩ := b
    simp only [resolveBlocks] at he
    split at he
    · exact resolveSubBlocks_effects decrypt vars subs e he
    · simp only [List.mem_append] at he
      rcases he with he | he
      · exact resolveSubBlocks_effects decrypt vars subs e he
      · exact ih e he

theorem decryptAll_effects (decrypt : String → Except String String) :
    ∀ (vars : List (String × String)), ∀ e ∈ (decryptAll decrypt vars).1,
      isDecrypt e = true := by
  intro vars
  induction vars with
  | nil => intro e he; simp [decryptAll] at he
  | cons kv rest ih =>
    intro e he
    obtain ⟨k, enc⟩ := kv
    simp only [decryptAll] at he
    split at he
    · simp at he; subst he; rfl
    · simp only [List.mem_cons] at he
      rcases he with he | he
      · subst he; rfl
      · exact ih e he

theorem loadData_error_shape (o : Oracles) (wf : Workflow) (e : ExecError)
    (h : loadData o wf = .error e) : e = .noWorkflowData wf.id := by
  simp only [loadData] at h
  split at h
  · simp at h
  · split at h
    · simp at h
    · simp only [Except.error.injEq] at h
      exact h.symm

theorem substErrToExec_shape (e : SubstErr) :
    substErrToExec e ≠ .alreadyRunning ∧ (∀ m, substErrToExec e ≠ .usageLimit m) := by
  cases e <;> simp [substErrToExec]

theorem runBody_error_shape (o : Oracles) (wf : Workflow) (input : Option Value)
    (e : ExecError) (h : (runBody o wf input).2 = .error e) :
    e ≠ .alreadyRunning ∧ ∀ m, e ≠ .usageLimit m := by
  simp only [runBody] at h
  split at h
  · next eload heq =>
      simp only [Except.error.injEq] at h
      subst h
      have hs := loadData_error_shape o wf _ heq
      subst hs
      simp
  · split at h
    · next e2 heq2 =>
        simp only [Except.error.injEq] at h
        subst h
        exact substErrToExec_shape e2
    · split at h
      · next e3 heq3 =>
          simp only [Except.error.injEq] at h
          subst h
          exact substErrToExec_shape e3
      · split at h
        · simp only [Except.error.injEq] at h
          subst h
          simp
        · simp at h

theorem runBody_ne_already (o : Oracles) (wf : Workflow) (input : Option Value) :
    (runBody o wf input).2 ≠ .error .alreadyRunning := by
  intro h
  exact (runBody_error_shape o wf input _ h).1 rfl

theorem runBody_counter_counts (o : Oracles) (wf : Workflow) (input : Option Value) :
    (countEff isRunCount (runBody o wf input).1,
     countEff isApiCalls (runBody o wf input).1)
      = (match (runBody o wf input).2 with
         | .ok r => if r.success then (1, 1) else (0, 0)
         | .error _ => (0, 0)) := by
  have hrc : ∀ c, isRunCount (Effect.decryptCall c) = false := fun c => rfl
  have hac : ∀ c, isApiCalls (Effect.decryptCall c) = false := fun c => rfl
  simp only [runBody]
  split
  · simp [countEff, isRunCount, isApiCalls]
  · split
    · simp only [countEff_append,
        decryptOnly_count (resolveBlocks_effects _ _ _) hrc,
        decryptOnly_count (resolveBlocks_effects _ _ _) hac]
      simp [countEff, isRunCount, isApiCalls]
    · split
      · simp only [countEff_append,
          decryptOnly_count (resolveBlocks_effects _ _ _) hrc,
          decryptOnly_count (resolveBlocks_effects _ _ _) hac,
          decryptOnly_count (decryptAll_effects _ _) hrc,
          decryptOnly_count (decryptAll_effects _ _) hac]
        simp [countEff, isRunCount, isApiCalls]
      · split
        · simp only [countEff_append,
            decryptOnly_count (resolveBlocks_effects _ _ _) hrc,
            decryptOnly_count (resolveBlocks_effects _ _ _) hac,
            decryptOnly_count (decryptAll_effects _ _) hrc,
            decryptOnly_count (decryptAll_effects _ _) hac]
          simp [countEff, isRunCount, isApiCalls]
        · split
          · simp only [countEff_append,
              decryptOnly_count (resolveBlocks_effects _ _ _) hrc,
              decryptOnly_count (resolveBlocks_effects _ _ _) hac,
              decryptOnly_count (decryptAll_effects _ _) hrc,
              decryptOnly_count (decryptAll_effects _ _) hac]
            simp_all [countEff, isRunCount, isApiCalls]
          · simp only [countEff_append,
              decryptOnly_count (resolveBlocks_effects _ _ _) hrc,
              decryptOnly_count (resolveBlocks_effects _ _ _) hac,
              decryptOnly_count (decryptAll_effects _ _) hrc,
              decryptOnly_count (decryptAll_effects _ _) hac]
            simp_all [countEff, isRunCount, isApiCalls]

theorem runBody_ok_engine_mem (o : Oracles) (wf : Workflow) (input : Option Value) :
    ∀ r, (runBody o wf input).2 = .ok r →
      Effect.engineInvoke (normalizeWorkflowVariables o.jsonParseObj wf.vars)
        ∈ (runBody o wf input).1 := by
  simp only [runBody]
  split
  · intro r h; simp at h
  · split
    · intro r h; simp at h
    · split
      · intro r h; simp at h
      · split
        · intro r h; simp at h
        · intro r h
          simp [List.mem_append]

theorem runBody_engine_const (o : Oracles) (wf : Workflow) (input : Option Value)
    (ret : EngineReturn)
    (heng : ∀ sw pb env inp wv, o.engine sw pb env inp wv = .ok ret) :
    ∀ r, (runBody o wf input).2 = .ok r →
      r = extractResult ret ∧
      Effect.persistLogs wf.id o.executionId
        ⟨extractResult ret, (o.buildTrace (extractResult ret)).1,
          (o.buildTrace (extractResult ret)).2⟩ ∈ (runBody o wf input).1 := by
  simp only [runBody]
  split
  · intro r h; simp at h
  · split
    · intro r h; simp at h
    · split
      · intro r h; simp at h
      · split
        · next msg heq =>
            rw [heng _ _ _ _ _] at heq
            simp at heq
        · next ret2 heq =>
            rw [heng _ _ _ _ _] at heq
            simp only [Except.ok.injEq] at heq
            subst heq
            intro r h
            simp only [Except.ok.injEq] at h
            subst h
            refine ⟨rfl, ?_⟩
            simp [List.mem_append]

theorem decryptAll_fails (decrypt : String → Except String String)
    (k enc : String) (post : List (String × String)) (m : String) :
    ∀ (pre : List (String × String)),
      (∀ p ∈ pre, ∃ d, decrypt p.2 = .ok d) →
      decrypt enc = .error m →
      ∃ effs, decryptAll decrypt (pre ++ (k, enc) :: post)
          = (effs, .error (.decryptFailed k m)) ∧ Effect.decryptCall enc ∈ effs := by
  intro pre
  induction pre with
  | nil =>
    intro _ hk
    exact ⟨[Effect.decryptCall enc], by simp [decryptAll, hk], by simp⟩
  | cons p rest ih =>
    intro hpre hk
    obtain ⟨d, hd⟩ := hpre p (by simp)
    obtain ⟨effs, heq, hmem⟩ := ih (fun q hq => hpre q (by simp [hq])) hk
    obtain ⟨kp, encp⟩ := p
    refine ⟨Effect.decryptCall encp :: effs, ?_, by simp [hmem]⟩
    simp only [List.cons_append, decryptAll, List.append_eq]
    rw [hd, heq]

theorem substMatches_missing (decrypt : String → Except String String)
    (vars : List (String × String)) (post : List String) :
    ∀ (pre : List String) (v : String) (mtext : String),
      (∀ x ∈ pre, resolvable decrypt vars x = true) →
      lookupVar vars (stripBraces mtext) = none →
      (substMatches decrypt vars (pre ++ mtext :: post) v).2
        = .error (.varNotFound (stripBraces mtext)) := by
  intro pre
  induction pre with
  | nil =>
    intro v mtext _ hmiss
    simp [substMatches, hmiss]
  | cons x rest ih =>
    intro v mtext hpre hmiss
    have hx := hpre x (by simp)
    rcases hl : lookupVar vars (stripBraces x) with _ | enc
    · simp only [resolvable, hl] at hx
      exact Bool.noConfusion hx
    · simp only [resolvable, hl] at hx
      rcases hd : decrypt enc with msg | d
      · simp only [hd] at hx
        exact Bool.noConfusion hx
      · simp only [List.cons_append, substMatches, hl, hd, List.append_eq]
        exact ih _ mtext (fun y hy => hpre y (by simp [hy])) hmiss

theorem regErase_not_mem (k : String) (r : List String) : k ∉ regErase k r := by
  simp [regErase]

theorem executeWorkflow_already_iff (o : Oracles) (wf : Workflow) (requestId : String)
    (input : Option Value) (reg : List String) :
    (executeWorkflow o wf requestId input reg).result = .error .alreadyRunning
      ↔ executionKey wf.id requestId ∈ reg := by
  simp only [executeWorkflow]
  split
  · next hmem => simp [hmem]
  · next hmem =>
    split
    · simp [hmem]
    · split
      · next r heq => simp [hmem]
      · next e heq =>
          simp only [hmem, iff_false]
          intro h
          simp only [Except.error.injEq] at h
          subst h
          exact runBody_ne_already o wf input heq

theorem executeWorkflow_after_not_mem (o : Oracles) (wf : Workflow) (requestId : String)
    (input : Option Value) (reg : List String)
    (h : (executeWorkflow o wf requestId input reg).result ≠ .error .alreadyRunning) :
    executionKey wf.id requestId ∉ (executeWorkflow o wf requestId input reg).registryAfter := by
  have hmem : executionKey wf.id requestId ∉ reg := by
    intro hc
    exact h ((executeWorkflow_already_iff o wf requestId input reg).2 hc)
  simp only [executeWorkflow]
  split
  · next hm => exact absurd hm hmem
  · split
    · exact hmem
    · split
      · exact regErase_not_mem _ _
      · exact regErase_not_mem _ _

theorem executeWorkflow_ok_inv (o : Oracles) (wf : Workflow) (requestId : String)
    (input : Option Value) (reg : List String) (r : ExecutionResult)
    (h : (executeWorkflow o wf requestId input reg).result = .ok r) :
    (runBody o wf input).2 = .ok r ∧
    (executeWorkflow o wf requestId input reg).trace
      = [Effect.genExecutionId o.executionId, Effect.usageCheck wf.userId]
          ++ (runBody o wf input).1 := by
  revert h
  simp only [executeWorkflow]
  split
  · intro h; simp at h
  · split
    · intro h; simp at h
    · split
      · next r2 heq =>
          intro h
          simp only [Except.ok.injEq] at h
          subst h
          exact ⟨heq, by simp⟩
      · intro h; simp at h

theorem executeWorkflow_error_inv (o : Oracles) (wf : Workflow) (requestId : String)
    (input : Option Value) (reg : List String) (e : ExecError)
    (hkey : executionKey wf.id requestId ∉ reg)
    (husage : o.usage.isExceeded = false)
    (hb : (runBody o wf input).2 = .error e) :
    (executeWorkflow o wf requestId input reg).result = .error e ∧
    (executeWorkflow o wf requestId input reg).trace
      = [Effect.genExecutionId o.executionId, Effect.usageCheck wf.userId]
          ++ (runBody o wf input).1 ++ [Effect.persistError wf.id o.executionId] := by
  simp only [executeWorkflow, if_neg hkey, husage, Bool.false_eq_true, if_false, hb]
  exact ⟨by simp, by simp⟩

theorem runBody_decrypt_fail (o : Oracles) (wf : Workflow) (input : Option Value)
    (data : WorkflowData) (se : List Effect) (cur : List (String × List (String × Value)))
    (pre : List (String × String)) (k enc : String) (post : List (String × String)) (m : String)
    (hload : loadData o wf = .ok data)
    (henv : o.userEnv = some (pre ++ (k, enc) :: post))
    (hsub : resolveBlocks o.decrypt (pre ++ (k, enc) :: post) (o.merge data.blocks)
        = (se, .ok cur))
    (hpre : ∀ p ∈ pre, ∃ d, o.decrypt p.2 = .ok d)
    (hk : o.decrypt enc = .error m) :
    (runBody o wf input).2 = .error (.decryptFailed k m) ∧
    Effect.decryptCall enc ∈ (runBody o wf input).1 ∧
    countEff isEngine (runBody o wf input).1 = 0 := by
  obtain ⟨effs, hda, hmem⟩ := decryptAll_fails o.decrypt k enc post m pre hpre hk
  have hse : ∀ e ∈ se, isDecrypt e = true := by
    intro e he
    refine resolveBlocks_effects o.decrypt (pre ++ (k, enc) :: post) (o.merge data.blocks) e ?_
    rw [hsub]
    exact he
  have heffs : ∀ e ∈ effs, isDecrypt e = true := by
    intro e he
    refine decryptAll_effects o.decrypt (pre ++ (k, enc) :: post) e ?_
    rw [hda]
    exact he
  have h1 : countEff isEngine se = 0 := decryptOnly_count hse (fun c => rfl)
  have h2 : countEff isEngine effs = 0 := decryptOnly_count heffs (fun c => rfl)
  simp only [runBody, hload, henv, Option.getD_some, hsub, hda, substErrToExec]
  refine ⟨by simp, by simp [hmem], ?_⟩
  simp only [countEff_append, h1, h2]
  simp [countEff, isEngine]

theorem executeWorkflow_genId_mem (o : Oracles) (wf : Workflow) (requestId : String)
    (input : Option Value) (reg : List String) :
    Effect.genExecutionId o.executionId ∈ (executeWorkflow o wf requestId input reg).trace := by
  simp only [executeWorkflow]
  split
  · simp
  · split
    · simp
    · split <;> simp

/-- C1: with two concurrent `executeWorkflow` calls sharing the admission key
`wf-1:req-1`, the interleaving that runs both membership tests (route.ts
line 57) while both calls are suspended at the usage-limit await (line 63)
lets both insert the key (line 88) and both reach the engine invocation: the
`await` between the registry membership test and the insertion makes
test-and-insert non-atomic, so it is not the case that at most one call
passes admission while the other fails with AlreadyRunning. -/
theorem c1_duplicate_admission_race :
    raceFinal.tasks
      = [⟨executionKey "wf-1" "req-1", TaskPC.atCleanup, true, true⟩,
         ⟨executionKey "wf-1" "req-1", TaskPC.atCleanup, true, true⟩] := by decide

/-- C2: any call whose outcome is not AlreadyRunning — in particular any call
that inserted its admission key — leaves the registry without that key
(the `finally` of route.ts line 308), so an immediately retried identical
request is not rejected as AlreadyRunning. -/
theorem c2_reservation_released (o : Oracles) (wf : Workflow) (requestId : String)
    (input : Option Value) (reg : List String)
    (h : (executeWorkflow o wf requestId input reg).result ≠ .error .alreadyRunning) :
    executionKey wf.id requestId ∉ (executeWorkflow o wf requestId input reg).registryAfter ∧
    (executeWorkflow o wf requestId input
        (executeWorkflow o wf requestId input reg).registryAfter).result
      ≠ .error .alreadyRunning := by
  refine ⟨executeWorkflow_after_not_mem o wf requestId input reg h, ?_⟩
  intro hc
  exact executeWorkflow_after_not_mem o wf requestId input reg h
    ((executeWorkflow_already_iff o wf requestId input _).1 hc)

/-- Witness for C2 at a concrete successful run. -/
theorem c2_reservation_released_witness :
    (executeWorkflow oBase wfDemo "req-1" none []).result ≠ .error .alreadyRunning ∧
    (executionKey wfDemo.id "req-1"
        ∉ (executeWorkflow oBase wfDemo "req-1" none []).registryAfter ∧
      (executeWorkflow oBase wfDemo "req-1" none
          (executeWorkflow oBase wfDemo "req-1" none []).registryAfter).result
        ≠ .error .alreadyRunning) :=
  ⟨by decide, c2_reservation_released oBase wfDemo "req-1" none [] (by decide)⟩

/-- C3 counterexample: with the stored value `\x7b\x7bA\x7d\x7d\x7b\x7bB\x7d\x7d`
and the resolved mapping A ↦ `\x7b\x7bB\x7d\x7d`, B ↦ `y`, the code produces
`y\x7b\x7bB\x7d\x7d`: the decrypted value of A is itself consumed by B's
first-occurrence replacement, while the spec's non-recursive reference
expansion produces `\x7b\x7bB\x7d\x7dy`; so substitution is not
non-recursive and does not always yield the reference result. -/
theorem c3_resubstitution_counterexample :
    (substituteValue cexDecrypt cexVars (.vstr cexTemplate)).2
        = .ok (.vstr ("y" ++ String.mk [lbrace, lbrace] ++ "B"
            ++ String.mk [rbrace, rbrace])) ∧
    specTemplateExpand cexResolve cexTemplate
        = .ok (String.mk [lbrace, lbrace] ++ "B" ++ String.mk [rbrace, rbrace] ++ "y") ∧
    ¬ (substituteValue cexDecrypt cexVars (.vstr cexTemplate)).2
        = .ok (.vstr (String.mk [lbrace, lbrace] ++ "B"
            ++ String.mk [rbrace, rbrace] ++ "y")) := by decide

/-- C3 amended: substitution scans the original string's placeholders and
replaces them left-to-right, each replacing the first occurrence of the
placeholder text in the current (possibly already substituted) value, so an
earlier decrypted value may be consumed by a later replacement; it is a
deterministic function of its input; the first placeholder whose name is
absent from the variable mapping (all earlier ones resolving) fails the
whole resolution with an error naming that variable; and on the spec's
worked example the result is `x and y`. -/
theorem c3_substitution_amended (decrypt : String → Except String String)
    (vars : List (String × String)) (pre post : List String) (mtext s : String)
    (hguard : hasBraces s = true)
    (hmatches : findMatches s = pre ++ mtext :: post)
    (hpre : pre.all (resolvable decrypt vars) = true)
    (hmiss : lookupVar vars (stripBraces mtext) = none) :
    (substituteValue decrypt vars (.vstr s)).2
        = .error (.varNotFound (stripBraces mtext)) ∧
    (substituteValue posDecrypt posVars (.vstr posTemplate)).2 = .ok (.vstr "x and y") := by
  constructor
  · simp only [substituteValue, hguard, if_true, hmatches]
    rw [substMatches_missing decrypt vars post pre s mtext
      (fun x hx => List.all_eq_true.mp hpre x hx) hmiss]
    rfl
  · decide

/-- Witness for C3 amended: the spec's own example with only A bound. -/
theorem c3_substitution_amended_witness :
    hasBraces posTemplate = true ∧
    findMatches posTemplate = [phA] ++ phB :: [] ∧
    [phA].all (resolvable posDecrypt [("A", "encA")]) = true ∧
    lookupVar [("A", "encA")] (stripBraces phB) = none ∧
    ((substituteValue posDecrypt [("A", "encA")] (.vstr posTemplate)).2
        = .error (.varNotFound (stripBraces phB)) ∧
      (substituteValue posDecrypt posVars (.vstr posTemplate)).2 = .ok (.vstr "x and y")) :=
  ⟨by decide, by decide, by decide, by decide,
    c3_substitution_amended posDecrypt [("A", "encA")] [phA] [] phB posTemplate
      (by decide) (by decide) (by decide) (by decide)⟩

/-- C4: a request whose usage lookup reports exceeded (and which passes the
registry membership test) fails with status 402 and code
`USAGE_LIMIT_EXCEEDED`, and its trace is exactly the id generation and the
usage check — no workflow load, no decryption call, no engine invocation. -/
theorem c4_usage_limit_preempts (o : Oracles) (wf : Workflow) (requestId : String)
    (input : Option Value) (reg : List String)
    (hkey : executionKey wf.id requestId ∉ reg)
    (hex : o.usage.isExceeded = true) :
    handleRequest o wf requestId input reg
      = .failure ⟨usageMessage o.usage.message, 402, "USAGE_LIMIT_EXCEEDED"⟩ ∧
    (executeWorkflow o wf requestId input reg).trace
      = [Effect.genExecutionId o.executionId, Effect.usageCheck wf.userId] ∧
    countEff isDecrypt (executeWorkflow o wf requestId input reg).trace = 0 ∧
    countEff isEngine (executeWorkflow o wf requestId input reg).trace = 0 ∧
    countEff isLoad (executeWorkflow o wf requestId input reg).trace = 0 := by
  simp only [executeWorkflow, handleRequest, if_neg hkey, hex, if_true]
  refine ⟨by simp [errorToResponse], by simp, ?_, ?_, ?_⟩ <;>
    simp [countEff, isDecrypt, isEngine, isLoad]

/-- Witness for C4 at a concrete exceeded-usage run. -/
theorem c4_usage_limit_preempts_witness :
    (executionKey wfDemo.id "rq" ∉ ([] : List String)) ∧
    oUsageExceeded.usage.isExceeded = true ∧
    (handleRequest oUsageExceeded wfDemo "rq" none []
        = .failure ⟨usageMessage oUsageExceeded.usage.message, 402, "USAGE_LIMIT_EXCEEDED"⟩ ∧
      (executeWorkflow oUsageExceeded wfDemo "rq" none []).trace
        = [Effect.genExecutionId oUsageExceeded.executionId,
           Effect.usageCheck wfDemo.userId] ∧
      countEff isDecrypt (executeWorkflow oUsageExceeded wfDemo "rq" none []).trace = 0 ∧
      countEff isEngine (executeWorkflow oUsageExceeded wfDemo "rq" none []).trace = 0 ∧
      countEff isLoad (executeWorkflow oUsageExceeded wfDemo "rq" none []).trace = 0) :=
  ⟨by decide, by decide,
    c4_usage_limit_preempts oUsageExceeded wfDemo "rq" none [] (by decide) (by decide)⟩

/-- C5 counterexample: a request rejected for a duplicate admission key is
surfaced with status 500 and code `EXECUTION_ERROR` — exactly the status and
code of a generic engine failure (here `boom`), and not a conflict status —
so the failure is not HTTP-distinguishable from generic execution failure. -/
theorem c5_conflict_status_counterexample :
    handleRequest oBase wfDemo "r1" none [executionKey wfDemo.id "r1"]
      = .failure ⟨"Execution is already running", 500, "EXECUTION_ERROR"⟩ ∧
    handleRequest oEngineFail wfDemo "r1" none []
      = .failure ⟨"boom", 500, "EXECUTION_ERROR"⟩ := by decide

/-- C5 amended: a request whose admission key is already present fails with
AlreadyRunning, surfaced over HTTP as status 500 with code `EXECUTION_ERROR`
and message `Execution is already running` (indistinguishable by status/code
from a generic execution failure), with no persistence-sink error record and
no other effect beyond the executionId generation. -/
theorem c5_already_running_amended (o : Oracles) (wf : Workflow) (requestId : String)
    (input : Option Value) (reg : List String)
    (hkey : executionKey wf.id requestId ∈ reg) :
    handleRequest o wf requestId input reg
      = .failure ⟨"Execution is already running", 500, "EXECUTION_ERROR"⟩ ∧
    (executeWorkflow o wf requestId input reg).trace
      = [Effect.genExecutionId o.executionId] ∧
    countEff isPersistErr (executeWorkflow o wf requestId input reg).trace = 0 := by
  simp only [executeWorkflow, handleRequest, hkey, if_true]
  have : errorToResponse .alreadyRunning
      = ⟨"Execution is already running", 500, "EXECUTION_ERROR"⟩ := by decide
  refine ⟨by simp [this], by simp, by simp [countEff, isPersistErr]⟩

/-- Witness for C5 amended with the key concretely present. -/
theorem c5_already_running_amended_witness :
    executionKey wfDemo.id "r1" ∈ [executionKey wfDemo.id "r1"] ∧
    (handleRequest oBase wfDemo "r1" none [executionKey wfDemo.id "r1"]
        = .failure ⟨"Execution is already running", 500, "EXECUTION_ERROR"⟩ ∧
      (executeWorkflow oBase wfDemo "r1" none [executionKey wfDemo.id "r1"]).trace
        = [Effect.genExecutionId oBase.executionId] ∧
      countEff isPersistErr
        (executeWorkflow oBase wfDemo "r1" none [executionKey wfDemo.id "r1"]).trace = 0) :=
  ⟨by decide,
    c5_already_running_amended oBase wfDemo "r1" none [executionKey wfDemo.id "r1"] (by decide)⟩

/-- C6: the workflow run counter and the owner's API-call counter are each
touched exactly once when the engine result has `success = true`, and not at
all when the result has `success = false` or the call fails with any error. -/
theorem c6_counters_iff_success (o : Oracles) (wf : Workflow) (requestId : String)
    (input : Option Value) (reg : List String) :
    (countEff isRunCount (executeWorkflow o wf requestId input reg).trace,
     countEff isApiCalls (executeWorkflow o wf requestId input reg).trace)
      = match (executeWorkflow o wf requestId input reg).result with
        | .ok r => if r.success then (1, 1) else (0, 0)
        | .error _ => (0, 0) := by
  have hb := runBody_counter_counts o wf input
  by_cases hkey : executionKey wf.id requestId ∈ reg
  · simp [executeWorkflow, hkey, countEff, isRunCount, isApiCalls]
  · by_cases husage : o.usage.isExceeded = true
    · simp [executeWorkflow, if_neg hkey, husage, countEff, isRunCount, isApiCalls]
    · have husage2 : o.usage.isExceeded = false := by
        cases hu : o.usage.isExceeded
        · rfl
        · exact absurd hu husage
      rcases hbody : (runBody o wf input).2 with e | r
      · simp only [hbody] at hb
        rw [Prod.mk.injEq] at hb
        simp only [executeWorkflow, if_neg hkey, husage2, Bool.false_eq_true, if_false, hbody]
        simp only [countEff_append, hb.1, hb.2]
        rfl
      · simp only [hbody] at hb
        rw [Prod.mk.injEq] at hb
        simp only [executeWorkflow, if_neg hkey, husage2, Bool.false_eq_true, if_false, hbody]
        simp only [countEff_append, hb.1, hb.2]
        rcases hs : r.success with _ | _ <;> simp [hs, countEff, isRunCount, isApiCalls]

/-- C7: when the workflow-variables field is a string that fails structured
parsing and the call succeeds, the engine invocation still happens and
receives the empty workflow-variables mapping — the malformed field degrades
without aborting the request. -/
theorem c7_malformed_variables_nonfatal (o : Oracles) (wf : Workflow) (requestId : String)
    (input : Option Value) (reg : List String) (s : String) (r : ExecutionResult)
    (hv : wf.vars = .str s)
    (hp : o.jsonParseObj s = none)
    (hr : (executeWorkflow o wf requestId input reg).result = .ok r) :
    Effect.engineInvoke [] ∈ (executeWorkflow o wf requestId input reg).trace := by
  obtain ⟨hb, htr⟩ := executeWorkflow_ok_inv o wf requestId input reg r hr
  have hmem := runBody_ok_engine_mem o wf input r hb
  have hnorm : normalizeWorkflowVariables o.jsonParseObj wf.vars = [] := by
    rw [hv]
    by_cases hs : s = "" <;> simp [normalizeWorkflowVariables, hp, hs]
  rw [hnorm] at hmem
  rw [htr]
  simp [hmem]

/-- Witness for C7: unparseable string variables with a successful engine. -/
theorem c7_malformed_variables_nonfatal_witness :
    wfBadVars.vars = .str "not structured" ∧
    oBase.jsonParseObj "not structured" = none ∧
    (executeWorkflow oBase wfBadVars "rq" none []).result = .ok demoResult ∧
    Effect.engineInvoke [] ∈ (executeWorkflow oBase wfBadVars "rq" none []).trace :=
  ⟨by decide, by decide, by decide,
    c7_malformed_variables_nonfatal oBase wfBadVars "rq" none [] "not structured" demoResult
      (by decide) (by decide) (by decide)⟩

/-- C8 counterexample: a usage-limit failure is raised after the executionId
has been generated (the id-generation effect is in the trace), yet the trace
contains no persistence-sink failure report — contradicting the claim that
every fatal error raised after id generation is reported to the persistence
sink's failure path. -/
theorem c8_persistence_gap_counterexample :
    (executeWorkflow oUsageExceeded wfDemo "r8" none []).result
      = .error (.usageLimit "limit hit") ∧
    (executeWorkflow oUsageExceeded wfDemo "r8" none []).trace
      = [Effect.genExecutionId "exec-8", Effect.usageCheck "user-1"] := by decide

/-- C8 amended: every fatal error is raised after executionId generation and
is re-thrown to the boundary with `errorToResponse` preserving the
usage-limit status/code; errors raised inside the execution try block are
reported to the persistence sink's failure path, while AlreadyRunning and
UsageLimitExceeded — raised before the try block — are not. -/
theorem c8_error_propagation_amended (o : Oracles) (wf : Workflow) (requestId : String)
    (input : Option Value) (reg : List String) (e : ExecError)
    (h : (executeWorkflow o wf requestId input reg).result = .error e) :
    Effect.genExecutionId o.executionId ∈ (executeWorkflow o wf requestId input reg).trace ∧
    handleRequest o wf requestId input reg = .failure (errorToResponse e) ∧
    (match e with
     | .alreadyRunning =>
         Effect.persistError wf.id o.executionId
           ∉ (executeWorkflow o wf requestId input reg).trace
     | .usageLimit _ =>
         Effect.persistError wf.id o.executionId
           ∉ (executeWorkflow o wf requestId input reg).trace
     | _ =>
         Effect.persistError wf.id o.executionId
           ∈ (executeWorkflow o wf requestId input reg).trace) := by
  refine ⟨executeWorkflow_genId_mem o wf requestId input reg, by simp [handleRequest, h], ?_⟩
  by_cases hkey : executionKey wf.id requestId ∈ reg
  · have hres : (executeWorkflow o wf requestId input reg).result = .error .alreadyRunning := by
      simp [executeWorkflow, hkey]
    rw [hres] at h
    simp only [Except.error.injEq] at h
    subst h
    simp [executeWorkflow, hkey]
  · by_cases husage : o.usage.isExceeded = true
    · have hres : (executeWorkflow o wf requestId input reg).result
          = .error (.usageLimit (usageMessage o.usage.message)) := by
        simp [executeWorkflow, if_neg hkey, husage]
      rw [hres] at h
      simp only [Except.error.injEq] at h
      subst h
      simp [executeWorkflow, if_neg hkey, husage]
    · have husage2 : o.usage.isExceeded = false := by
        cases hu : o.usage.isExceeded
        · rfl
        · exact absurd hu husage
      rcases hbody : (runBody o wf input).2 with e2 | r
      · obtain ⟨hres, htrace⟩ :=
          executeWorkflow_error_inv o wf requestId input reg e2 hkey husage2 hbody
        rw [hres] at h
        simp only [Except.error.injEq] at h
        subst h
        have hs := runBody_error_shape o wf input _ hbody
        cases e2 with
        | alreadyRunning => exact absurd rfl hs.1
        | usageLimit m => exact absurd rfl (hs.2 m)
        | noWorkflowData wid => rw [htrace]; simp
        | varNotFound n => rw [htrace]; simp
        | decryptFailed n m => rw [htrace]; simp
        | engineError m => rw [htrace]; simp
      · have hres : (executeWorkflow o wf requestId input reg).result = .ok r := by
          simp only [executeWorkflow, if_neg hkey, husage2, Bool.false_eq_true, if_false, hbody]
        rw [hres] at h
        simp at h

/-- Witness for C8 amended at a concrete engine failure: the persistence
sink's failure path is invoked. -/
theorem c8_error_propagation_amended_witness :
    (executeWorkflow oEngineFail wfDemo "rq" none []).result
      = .error (.engineError "boom") ∧
    (Effect.genExecutionId oEngineFail.executionId
        ∈ (executeWorkflow oEngineFail wfDemo "rq" none []).trace ∧
      handleRequest oEngineFail wfDemo "rq" none []
        = .failure (errorToResponse (.engineError "boom")) ∧
      Effect.persistError wfDemo.id oEngineFail.executionId
        ∈ (executeWorkflow oEngineFail wfDemo "rq" none []).trace) :=
  ⟨by decide,
    c8_error_propagation_amended oEngineFail wfDemo "rq" none [] (.engineError "boom")
      (by decide)⟩

/-- C9: when the engine returns `ret` (plain or composite), a successful call
returns exactly `extractResult ret` — the execution component of a composite
stream+execution value, the value itself otherwise — and it is that result
portion, enriched with trace spans, that is handed to the persistence
sink's success path. -/
theorem c9_stream_extraction (o : Oracles) (wf : Workflow) (requestId : String)
    (input : Option Value) (reg : List String) (ret : EngineReturn) (r : ExecutionResult)
    (heng : ∀ sw pb env inp wv, o.engine sw pb env inp wv = .ok ret)
    (hr : (executeWorkflow o wf requestId input reg).result = .ok r) :
    r = extractResult ret ∧
    Effect.persistLogs wf.id o.executionId
      ⟨extractResult ret, (o.buildTrace (extractResult ret)).1,
        (o.buildTrace (extractResult ret)).2⟩
      ∈ (executeWorkflow o wf requestId input reg).trace := by
  obtain ⟨hb, htr⟩ := executeWorkflow_ok_inv o wf requestId input reg r hr
  obtain ⟨h1, h2⟩ := runBody_engine_const o wf input ret heng r hb
  refine ⟨h1, ?_⟩
  rw [htr]
  simp [h2]

/-- Witness for C9 with a composite stream+execution engine return. -/
theorem c9_stream_extraction_witness :
    (∀ sw pb env inp wv, oStream.engine sw pb env inp wv = .ok (.streaming 7 demoResult)) ∧
    (executeWorkflow oStream wfDemo "rq" none []).result = .ok demoResult ∧
    (demoResult = extractResult (.streaming 7 demoResult) ∧
      Effect.persistLogs wfDemo.id oStream.executionId
        ⟨extractResult (.streaming 7 demoResult),
          (oStream.buildTrace (extractResult (.streaming 7 demoResult))).1,
          (oStream.buildTrace (extractResult (.streaming 7 demoResult))).2⟩
        ∈ (executeWorkflow oStream wfDemo "rq" none []).trace) :=
  ⟨fun _ _ _ _ _ => rfl, by decide,
    c9_stream_extraction oStream wfDemo "rq" none [] (.streaming 7 demoResult) demoResult
      (fun _ _ _ _ _ => rfl) (by decide)⟩

/-- C10: every stored environment variable is decrypted up front, so when any
stored variable fails decryption — here one that template substitution never
touched, substitution having succeeded — the whole call fails with an error
naming that variable, its ciphertext having been passed to the decryptor,
and the engine is never invoked. -/
theorem c10_decrypt_all_upfront (o : Oracles) (wf : Workflow) (requestId : String)
    (input : Option Value) (reg : List String) (data : WorkflowData) (se : List Effect)
    (cur : List (String × List (String × Value))) (pre : List (String × String))
    (k enc : String) (post : List (String × String)) (m : String)
    (hkey : executionKey wf.id requestId ∉ reg)
    (husage : o.usage.isExceeded = false)
    (hload : loadData o wf = .ok data)
    (henv : o.userEnv = some (pre ++ (k, enc) :: post))
    (hsub : resolveBlocks o.decrypt (pre ++ (k, enc) :: post) (o.merge data.blocks)
        = (se, .ok cur))
    (hpre : ∀ p ∈ pre, ∃ d, o.decrypt p.2 = .ok d)
    (hk : o.decrypt enc = .error m) :
    (executeWorkflow o wf requestId input reg).result = .error (.decryptFailed k m) ∧
    Effect.decryptCall enc ∈ (executeWorkflow o wf requestId input reg).trace ∧
    countEff isEngine (executeWorkflow o wf requestId input reg).trace = 0 := by
  obtain ⟨h1, h2, h3⟩ :=
    runBody_decrypt_fail o wf input data se cur pre k enc post m hload henv hsub hpre hk
  obtain ⟨hres, htrace⟩ := executeWorkflow_error_inv o wf requestId input reg _ hkey husage h1
  refine ⟨hres, ?_, ?_⟩
  · rw [htrace]; simp [h2]
  · rw [htrace]
    simp only [countEff_append, h3]
    rfl

/-- Witness for C10: the unreferenced variable `UNUSED` fails decryption and
aborts a run whose substitution phase succeeded trivially. -/
theorem c10_decrypt_all_upfront_witness :
    executionKey wfDemo.id "rq" ∉ ([] : List String) ∧
    oDecFail.usage.isExceeded = false ∧
    loadData oDecFail wfDemo = .ok demoData ∧
    oDecFail.userEnv = some ([] ++ ("UNUSED", "bad") :: []) ∧
    resolveBlocks oDecFail.decrypt ([] ++ ("UNUSED", "bad") :: [])
        (oDecFail.merge demoData.blocks) = ([], .ok []) ∧
    oDecFail.decrypt "bad" = .error "nope" ∧
    ((executeWorkflow oDecFail wfDemo "rq" none []).result
        = .error (.decryptFailed "UNUSED" "nope") ∧
      Effect.decryptCall "bad" ∈ (executeWorkflow oDecFail wfDemo "rq" none []).trace ∧
      countEff isEngine (executeWorkflow oDecFail wfDemo "rq" none []).trace = 0) :=
  ⟨by decide, by decide, by decide, by decide, by decide, by decide,
    c10_decrypt_all_upfront oDecFail wfDemo "rq" none [] demoData [] [] [] "UNUSED" "bad" []
      "nope" (by decide) (by decide) (by decide) (by decide) (by decide)
      (fun p hp => absurd hp (List.not_mem_nil p)) (by decide)⟩

end WorkflowExec
